import Mathlib

/-!
Verification of the Calcutta win-probability calculator
(`scripts/calculate_odds.py`) against its natural-language specification.

The Python source is shallowly embedded: floats become rationals (`ℚ`),
dictionaries become association lists or total functions, the global
random generator becomes an explicit stream `g : ℕ → ℚ` together with a
draw counter, and Python exceptions become `Except` / `Option` results.
-/

namespace Calcutta

/-- A competitor record, from `teams_{division}.json`.
`h2h` maps an opponent id to its `(w, l)` head-to-head record;
an empty list models a missing or empty `h2h` dict. -/
structure Team where
  id : String
  name : String
  wins : ℕ
  losses : ℕ
  ties : ℕ
  seed : ℕ
  h2h : List (String × ℕ × ℕ)
deriving DecidableEq, Repr

/-- The weights dict built in `main` (always carries all three keys). -/
structure Weights where
  standings : ℚ
  h2h : ℚ
  draw : ℚ
deriving DecidableEq, Repr

/-- Source `strength_from_standings`: win percentage as strength signal. -/
def strength_from_standings (t : Team) : ℚ :=
  let gp := t.wins + t.losses + t.ties
  if gp = 0 then 1/2
  else ((t.wins : ℚ) + (t.ties : ℚ) * (1/2)) / (gp : ℚ)

/-- Source `strength_from_h2h`: average H2H win rate across tracked opponents. -/
def strength_from_h2h (t : Team) : ℚ :=
  if t.h2h = [] then 1/2
  else
    let tw := (t.h2h.map (fun r => r.2.1)).sum
    let tg := (t.h2h.map (fun r => r.2.1 + r.2.2)).sum
    if tg = 0 then 1/2 else (tw : ℚ) / (tg : ℚ)

/-- The seed-based factor of `composite_strength` (line 73):
`max(0, 1.0 - seed / 50.0)`. -/
def seedSignal (seed : ℕ) : ℚ :=
  max 0 (1 - (seed : ℚ) / 50)

/-- The weight-redistribution block of `composite_strength`
(lines 56–67): returns the effective `(w_stand, w_h2h, w_seed)`. -/
def effWeights (t : Team) (w : Weights) : ℚ × ℚ × ℚ :=
  let wStand := w.standings
  let wH2h := w.h2h
  let wSeed := w.draw
  if t.h2h = [] ∧ 0 < wStand + wSeed then
    let extra := wH2h
    let totalOther := wStand + wSeed
    (wStand + extra * (wStand / totalOther), 0,
     wSeed + extra * (wSeed / totalOther))
  else
    (wStand, wH2h, wSeed)

/-- Source `composite_strength`: weighted combination of the three signals. -/
def composite_strength (t : Team) (w : Weights) : ℚ :=
  let ew := effWeights t w
  ew.1 * strength_from_standings t + ew.2.1 * strength_from_h2h t +
    ew.2.2 * seedSignal t.seed

/-- Source `pairwise_win_prob`: Bradley-Terry P(A beats B). -/
def pairwise_win_prob (sa sb : ℚ) : ℚ :=
  if 0 < sa + sb then sa / (sa + sb) else 1/2

/-- A bracket tree node: `{"team": id}`, `{"slot": name}`, or
`{"match": {left, right, loserSlot?}}`. -/
inductive BNode where
  | team (id : String)
  | slot (name : String)
  | game (left right : BNode) (loserSlot : Option String)
deriving DecidableEq, Repr

/-- The trial-scoped `slot_map` (overwrites modelled by cons-front). -/
abbrev SlotMap := List (String × Team)

abbrev TeamsMap := List (String × Team)

abbrev StrengthMap := List (String × ℚ)

/-- Lookup `strength_map.get(id, 0.5)`. -/
def getStrength (m : StrengthMap) (id : String) : ℚ :=
  (m.lookup id).getD (1/2)

/-- The two kinds of Python `KeyError` that `simulate_tree` can raise:
an unfilled slot (line 107) or an unknown team id (line 101). -/
inductive SimError where
  | slotUnfilled (name : String)
  | teamUnknown (id : String)
deriving DecidableEq, Repr

/-- Source `simulate_tree`.  Python mutates `slot_map` in place and advances the
global random stream even when an exception propagates, so the embedding
always returns the final `SlotMap` and draw counter alongside the
`Except` result. -/
def simulate_tree (sm : StrengthMap) (tm : TeamsMap) (g : ℕ → ℚ) :
    BNode → SlotMap → ℕ → Except SimError Team × SlotMap × ℕ
  | .team id, slots, k =>
    match tm.lookup id with
    | some t => (.ok t, slots, k)
    | none => (.error (.teamUnknown id), slots, k)
  | .slot name, slots, k =>
    match slots.lookup name with
    | some t => (.ok t, slots, k)
    | none => (.error (.slotUnfilled name), slots, k)
  | .game l r ls, slots, k =>
    match simulate_tree sm tm g l slots k with
    | (.error e, slots1, k1) => (.error e, slots1, k1)
    | (.ok lt, slots1, k1) =>
      match simulate_tree sm tm g r slots1 k1 with
      | (.error e, slots2, k2) => (.error e, slots2, k2)
      | (.ok rt, slots2, k2) =>
        let sl := getStrength sm lt.id
        let sr := getStrength sm rt.id
        let wl := if g k2 < pairwise_win_prob sl sr then (lt, rt) else (rt, lt)
        let slots3 :=
          match ls with
          | some s => (s, wl.2) :: slots2
          | none => slots2
        (.ok wl.1, slots3, k2 + 1)

/-- The championship configuration (`bracket["championship"]`). -/
structure ChampCfg where
  quarterSeed : List (ℕ × ℕ)
  semiPairs : List (ℕ × ℕ)
deriving DecidableEq, Repr

/-- The quarterfinal loop of `simulate_championship` (lines 141–150):
collects winners and losers in order; an out-of-range index is the Python
`IndexError`, modelled as `none`. -/
def quarterRound (sm : StrengthMap) (g : ℕ → ℚ) :
    List (ℕ × ℕ) → List Team → ℕ → Option (List Team × List Team × ℕ)
  | [], _, k => some ([], [], k)
  | (i, j) :: rest, qualifiers, k =>
    match qualifiers.get? i, qualifiers.get? j with
    | some a, some b =>
      let sa := getStrength sm a.id
      let sb := getStrength sm b.id
      let wl := if g k < pairwise_win_prob sa sb then (a, b) else (b, a)
      match quarterRound sm g rest qualifiers (k + 1) with
      | some (ws, ls, kf) => some (wl.1 :: ws, wl.2 :: ls, kf)
      | none => none
    | _, _ => none

/-- The championship-semifinal loop (lines 153–161). -/
def champSemiRound (sm : StrengthMap) (g : ℕ → ℚ) :
    List (ℕ × ℕ) → List Team → ℕ → Option (List Team × ℕ)
  | [], _, k => some ([], k)
  | (i, j) :: rest, winners, k =>
    match winners.get? i, winners.get? j with
    | some a, some b =>
      let sa := getStrength sm a.id
      let sb := getStrength sm b.id
      let w := if g k < pairwise_win_prob sa sb then a else b
      match champSemiRound sm g rest winners (k + 1) with
      | some (ws, kf) => some (w :: ws, kf)
      | none => none
    | _, _ => none

/-- The championship final (lines 164–170): plays entries 0 and 1 when at
least two semifinal winners exist, otherwise takes entry 0 (an empty list
is the Python `IndexError`). -/
def champFinal (sm : StrengthMap) (g : ℕ → ℚ) (ws : List Team) (k : ℕ) :
    Option (Team × ℕ) :=
  match ws with
  | a :: b :: _ =>
    let sa := getStrength sm a.id
    let sb := getStrength sm b.id
    some (if g k < pairwise_win_prob sa sb then a else b, k + 1)
  | [a] => some (a, k)
  | [] => none

/-- The consolation-semifinal loop (lines 173–181); the source duplicates
the championship-semifinal loop verbatim, applied to the quarter losers. -/
def consolSemiRound (sm : StrengthMap) (g : ℕ → ℚ) :
    List (ℕ × ℕ) → List Team → ℕ → Option (List Team × ℕ)
  | [], _, k => some ([], k)
  | (i, j) :: rest, losers, k =>
    match losers.get? i, losers.get? j with
    | some a, some b =>
      let sa := getStrength sm a.id
      let sb := getStrength sm b.id
      let w := if g k < pairwise_win_prob sa sb then a else b
      match consolSemiRound sm g rest losers (k + 1) with
      | some (ws, kf) => some (w :: ws, kf)
      | none => none
    | _, _ => none

/-- The consolation final (lines 184–190); duplicates the championship
final applied to the consolation semifinal winners. -/
def consolFinal (sm : StrengthMap) (g : ℕ → ℚ) (ws : List Team) (k : ℕ) :
    Option (Team × ℕ) :=
  match ws with
  | a :: b :: _ =>
    let sa := getStrength sm a.id
    let sb := getStrength sm b.id
    some (if g k < pairwise_win_prob sa sb then a else b, k + 1)
  | [a] => some (a, k)
  | [] => none

/-- Source `simulate_championship`: returns `(championship_winner,
consolation_winner)` plus the advanced draw counter. -/
def simulate_championship (qualifiers : List Team) (cfg : ChampCfg)
    (sm : StrengthMap) (g : ℕ → ℚ) (k : ℕ) : Option ((Team × Team) × ℕ) :=
  match quarterRound sm g cfg.quarterSeed qualifiers k with
  | none => none
  | some (qfWinners, qfLosers, k1) =>
    match champSemiRound sm g cfg.semiPairs qfWinners k1 with
    | none => none
    | some (csWinners, k2) =>
      match champFinal sm g csWinners k2 with
      | none => none
      | some (champ, k3) =>
        match consolSemiRound sm g cfg.semiPairs qfLosers k3 with
        | none => none
        | some (nsWinners, k4) =>
          match consolFinal sm g nsWinners k4 with
          | none => none
          | some (consol, k5) => some ((champ, consol), k5)

/-- Per-event win counters (`event_wins`), as total count functions over
team ids; every id that is ever incremented is a key of `teams_map`. -/
structure Wins where
  A : String → ℕ
  B : String → ℕ
  C : String → ℕ
  D : String → ℕ

/-- Increment one counter. -/
def bump (f : String → ℕ) (id : String) : String → ℕ :=
  fun x => if x = id then f x + 1 else f x

/-- An uncaught Python exception escaping `simulate`: a `KeyError` from
a qualifying-phase tree, or an `IndexError` from the championship. -/
inductive RunError where
  | key (e : SimError)
  | index
deriving DecidableEq, Repr

/-- One qualifying-phase loop of `simulate` (lines 224–233): simulate
each tree in order, collecting the winners; an exception aborts. -/
def runEvent (sm : StrengthMap) (tm : TeamsMap) (g : ℕ → ℚ) :
    List BNode → SlotMap → ℕ → Except SimError (List Team × SlotMap × ℕ)
  | [], slots, k => .ok ([], slots, k)
  | tree :: rest, slots, k =>
    match simulate_tree sm tm g tree slots k with
    | (.error e, _, _) => .error e
    | (.ok w, slots1, k1) =>
      match runEvent sm tm g rest slots1 k1 with
      | .error e => .error e
      | .ok (ws, slots2, k2) => .ok (w :: ws, slots2, k2)

/-- The body of the `simulate` trial loop (lines 220–255): phases 1–3
propagate exceptions; the C and D phases catch `KeyError` (any
`SimError`) and merely skip the tally entry of that event, keeping the slot-map and
random-stream side effects already performed. -/
def runTrial (sm : StrengthMap) (tm : TeamsMap) (g : ℕ → ℚ)
    (bracket_a : List BNode) (bracket_b : List BNode) (cfg : ChampCfg)
    (c_tree d_tree : BNode) (wins : Wins) (k : ℕ) :
    Except RunError (Wins × ℕ) :=
  match runEvent sm tm g bracket_a [] k with
  | .error e => .error (.key e)
  | .ok (aQ, slots1, k1) =>
    match runEvent sm tm g bracket_b slots1 k1 with
    | .error e => .error (.key e)
    | .ok (bQ, slots2, k2) =>
      match simulate_championship (aQ ++ bQ) cfg sm g k2 with
      | none => .error .index
      | some ((champW, consolW), k3) =>
        let wins1 : Wins :=
          { wins with A := bump wins.A champW.id, B := bump wins.B consolW.id }
        let rc := simulate_tree sm tm g c_tree slots2 k3
        let wins2 : Wins :=
          match rc.1 with
          | .ok w => { wins1 with C := bump wins1.C w.id }
          | .error _ => wins1
        let rd := simulate_tree sm tm g d_tree rc.2.1 rc.2.2
        let wins3 : Wins :=
          match rd.1 with
          | .ok w => { wins2 with D := bump wins2.D w.id }
          | .error _ => wins2
        .ok (wins3, rd.2.2)

/-- Loop `for _ in range(iterations)`: each trial starts from a fresh, empty
slot map; counters and the draw counter accumulate. -/
def runTrials (sm : StrengthMap) (tm : TeamsMap) (g : ℕ → ℚ)
    (bracket_a : List BNode) (bracket_b : List BNode) (cfg : ChampCfg)
    (c_tree d_tree : BNode) :
    ℕ → Wins → ℕ → Except RunError (Wins × ℕ)
  | 0, wins, k => .ok (wins, k)
  | n + 1, wins, k =>
    match runTrial sm tm g bracket_a bracket_b cfg c_tree d_tree wins k with
    | .error e => .error e
    | .ok (wins1, k1) => runTrials sm tm g bracket_a bracket_b cfg c_tree d_tree n wins1 k1

/-- The Python rounding of a value to an integer (round-half-to-even). -/
def pyRound (q : ℚ) : ℤ :=
  let f := ⌊q⌋
  let r := q - (f : ℚ)
  if r < 1/2 then f
  else if 1/2 < r then f + 1
  else if f % 2 = 0 then f else f + 1

/-- Rounding `round(x, 5)`. -/
def round5 (q : ℚ) : ℚ :=
  (pyRound (q * 100000) : ℚ) / 100000

/-- One output row of `simulate` (a Result Record). -/
structure ResultRec where
  teamId : String
  teamName : String
  A : ℚ
  B : ℚ
  C : ℚ
  D : ℚ
  any : ℚ
deriving DecidableEq, Repr

/-- The team map `teams_map = {t["id"]: t for t in teams}`. -/
def teamsMapOf (teams : List Team) : TeamsMap :=
  teams.map (fun t => (t.id, t))

/-- The map `strength_map = {t["id"]: composite_strength(t, weights)}`. -/
def strengthMapOf (teams : List Team) (weights : Weights) : StrengthMap :=
  teams.map (fun t => (t.id, composite_strength t weights))

/-- All counters start at zero (`{t["id"]: 0 for t in teams}`). -/
def winsZero : Wins :=
  ⟨fun _ => 0, fun _ => 0, fun _ => 0, fun _ => 0⟩

/-- The full bracket structure (`bracket_{division}.json`). -/
structure Bracket where
  a_event : List BNode
  b_event : List BNode
  championship : ChampCfg
  c_event : BNode
  d_event : BNode
deriving DecidableEq, Repr

/-- Source `simulate(teams, bracket, weights, iterations)`, with the random
stream `g` and its starting position `k` made explicit.  Returns the
result rows and the final stream position. -/
def simulate (teams : List Team) (bracket : Bracket) (weights : Weights)
    (iterations : ℕ) (g : ℕ → ℚ) (k : ℕ) :
    Except RunError (List ResultRec × ℕ) :=
  if teams.length < 2 then
    .ok (teams.map (fun t =>
      { teamId := t.id, teamName := t.name, A := 0, B := 0, C := 0, D := 0, any := 0 }), k)
  else
    let tm : TeamsMap := teamsMapOf teams
    let sm : StrengthMap := strengthMapOf teams weights
    match runTrials sm tm g bracket.a_event bracket.b_event bracket.championship
        bracket.c_event bracket.d_event iterations winsZero k with
    | .error e => .error e
    | .ok (wins, kf) =>
      .ok (teams.map (fun t =>
        let pa := (wins.A t.id : ℚ) / (iterations : ℚ)
        let pb := (wins.B t.id : ℚ) / (iterations : ℚ)
        let pc := (wins.C t.id : ℚ) / (iterations : ℚ)
        let pd := (wins.D t.id : ℚ) / (iterations : ℚ)
        { teamId := t.id, teamName := t.name,
          A := round5 pa, B := round5 pb, C := round5 pc, D := round5 pd,
          any := round5 (min 1 (pa + pb + pc + pd)) }), kf)

/-!
Spec-side definitions for the combined-bracket pairing claim.  These
follow the wording of the specification (one pairing structure, applied
to the quarter-round winners for the primary champion and to the
quarter-round losers for the consolation champion) and are compared with
the source-side `simulate_championship` above by the refinement theorem.
-/

/-- Spec-side pairing round: a declared list of index pairs determines
the matchups over the given entrants; each match draws one pairwise
outcome, and the winners and losers of the round are collected in pair
order. -/
def pairRoundSpec (sm : StrengthMap) (g : ℕ → ℚ) :
    List (ℕ × ℕ) → List Team → ℕ → Option (List Team × List Team × ℕ)
  | [], _, k => some ([], [], k)
  | (i, j) :: rest, entrants, k =>
    match entrants.get? i, entrants.get? j with
    | some a, some b =>
      let sa := getStrength sm a.id
      let sb := getStrength sm b.id
      let wl := if g k < pairwise_win_prob sa sb then (a, b) else (b, a)
      match pairRoundSpec sm g rest entrants (k + 1) with
      | some (ws, ls, kf) => some (wl.1 :: ws, wl.2 :: ls, kf)
      | none => none
    | _, _ => none

/-- Spec-side final: the two round winners meet in a final (degenerate
entrant lists behave as in the source: a single winner advances without
a draw, an empty list is an index failure). -/
def finalSpec (sm : StrengthMap) (g : ℕ → ℚ) (ws : List Team) (k : ℕ) :
    Option (Team × ℕ) :=
  match ws with
  | a :: b :: _ =>
    let sa := getStrength sm a.id
    let sb := getStrength sm b.id
    some (if g k < pairwise_win_prob sa sb then a else b, k + 1)
  | [a] => some (a, k)
  | [] => none

/-- Spec-side half bracket: the declared semi-round pairs applied to the
given entrants, followed by a final between the two semi-round winners.
Applied to the quarter winners it yields the primary champion; applied
to the quarter losers it yields the consolation champion. -/
def miniBracketSpec (sm : StrengthMap) (g : ℕ → ℚ) (pairs : List (ℕ × ℕ))
    (entrants : List Team) (k : ℕ) : Option (Team × ℕ) :=
  match pairRoundSpec sm g pairs entrants k with
  | none => none
  | some (ws, _, k1) => finalSpec sm g ws k1

/-!
Concrete fixtures used by witness theorems.
-/

/-- Fixture team a. -/
def tFixA : Team := ⟨"a", "A", 0, 0, 0, 1, []⟩

/-- Fixture team b. -/
def tFixB : Team := ⟨"b", "B", 0, 0, 0, 2, []⟩

/-- The default weights of `main`. -/
def wFix : Weights := ⟨1/2, 3/10, 1/5⟩

/-- A constant random stream. -/
def gHalf : ℕ → ℚ := fun _ => 1/2

/-- A tiny two-team bracket: one qualifying match whose loser feeds slot
B1; the C event is a direct team reference, the D event reads slot B1. -/
def bracketFix : Bracket :=
  { a_event := [.game (.team "a") (.team "b") (some "B1")],
    b_event := [],
    championship := ⟨[(0, 0)], [(0, 0)]⟩,
    c_event := .team "a",
    d_event := .slot "B1" }

/-- A malformed bracket whose first qualifying tree reads a slot that no
match ever fills. -/
def bracketBadA : Bracket :=
  { a_event := [.slot "QQ"],
    b_event := [],
    championship := ⟨[(0, 0)], [(0, 0)]⟩,
    c_event := .team "a",
    d_event := .team "a" }

/-- The expected output rows of `simulate` on the fixture bracket with
one trial. -/
def c6ResultsFix : List ResultRec :=
  [⟨"a", "A", 1, 1, 1, 0, 1⟩, ⟨"b", "B", 0, 0, 0, 1, 1⟩]

/-- A weights configuration with zero standings and seed weights but a
positive h2h weight. -/
def wC2fix : Weights := ⟨0, 3/10, 0⟩

/-- A weights configuration whose components total 2. -/
def wC4fix : Weights := ⟨2, 0, 0⟩

/-- An undefeated team with seed 1 and no head-to-head data. -/
def tC4fix : Team := ⟨"t", "T", 1, 0, 0, 1, []⟩

/-- The fixture team map. -/
def tmFix : TeamsMap := [("a", tFixA), ("b", tFixB)]

/-- The fixture championship configuration for a single qualifier. -/
def cfgFix : ChampCfg := ⟨[(0, 0)], [(0, 0)]⟩

/-- A bracket whose first qualifying tree references a team id missing
from the team map. -/
def bracketBadT : Bracket :=
  { a_event := [.team "nope"],
    b_event := [],
    championship := cfgFix,
    c_event := .team "a",
    d_event := .team "a" }

/-!
Helper lemmas (shared between claim theorems).
-/

/-- The standings signal lies in the unit interval. -/
lemma strength_from_standings_mem (t : Team) :
    0 ≤ strength_from_standings t ∧ strength_from_standings t ≤ 1 := by
  unfold strength_from_standings
  dsimp only
  split
  · norm_num
  · rename_i hgp
    have hgp' : 0 < ((t.wins + t.losses + t.ties : ℕ) : ℚ) := by
      exact_mod_cast Nat.pos_of_ne_zero hgp
    constructor
    · apply div_nonneg _ (le_of_lt hgp')
      positivity
    · rw [div_le_one hgp']
      push_cast
      have h3 : (0 : ℚ) ≤ t.losses := by positivity
      have h4 : (0 : ℚ) ≤ t.ties := by positivity
      linarith

/-- The head-to-head signal lies in the unit interval. -/
lemma strength_from_h2h_mem (t : Team) :
    0 ≤ strength_from_h2h t ∧ strength_from_h2h t ≤ 1 := by
  unfold strength_from_h2h
  dsimp only
  split
  · norm_num
  · split
    · norm_num
    · rename_i htg
      have hle : (t.h2h.map (fun r => r.2.1)).sum ≤
          (t.h2h.map (fun r => r.2.1 + r.2.2)).sum := by
        apply List.sum_le_sum
        intro r _
        exact Nat.le_add_right _ _
      have htg' : 0 < (((t.h2h.map (fun r => r.2.1 + r.2.2)).sum : ℕ) : ℚ) := by
        exact_mod_cast Nat.pos_of_ne_zero htg
      constructor
      · positivity
      · rw [div_le_one htg']
        exact_mod_cast hle

/-- The seed signal is nonnegative. -/
lemma seedSignal_nonneg (s : ℕ) : 0 ≤ seedSignal s :=
  le_max_left 0 _

/-- The seed signal is at most one. -/
lemma seedSignal_le_one (s : ℕ) : seedSignal s ≤ 1 := by
  unfold seedSignal
  apply max_le
  · norm_num
  · have : (0 : ℚ) ≤ (s : ℚ) / 50 := by positivity
    linarith

/-- With nonnegative input weights, the effective weights are
nonnegative and their total equals the total of the input weights. -/
lemma effWeights_nonneg_sum (t : Team) (w : Weights)
    (hs : 0 ≤ w.standings) (hh : 0 ≤ w.h2h) (hd : 0 ≤ w.draw) :
    0 ≤ (effWeights t w).1 ∧ 0 ≤ (effWeights t w).2.1 ∧ 0 ≤ (effWeights t w).2.2 ∧
    (effWeights t w).1 + (effWeights t w).2.1 + (effWeights t w).2.2 =
      w.standings + w.h2h + w.draw := by
  unfold effWeights
  dsimp only
  split
  · rename_i hcond
    have hpos : 0 < w.standings + w.draw := hcond.2
    have hne : w.standings + w.draw ≠ 0 := ne_of_gt hpos
    refine ⟨?_, le_refl 0, ?_, ?_⟩
    · have : 0 ≤ w.h2h * (w.standings / (w.standings + w.draw)) := by positivity
      linarith
    · have : 0 ≤ w.h2h * (w.draw / (w.standings + w.draw)) := by positivity
      linarith
    · field_simp
      ring
  · exact ⟨hs, hh, hd, rfl⟩

/-- Rounding half-to-even never increases past an integer bound. -/
lemma pyRound_le (q : ℚ) (N : ℤ) (h : q ≤ (N : ℚ)) : pyRound q ≤ N := by
  unfold pyRound
  dsimp only
  have hf : ⌊q⌋ ≤ N := by
    have := Int.floor_le_floor h
    simpa using this
  have hfq : (⌊q⌋ : ℚ) ≤ q := Int.floor_le q
  split
  · exact hf
  · rename_i h1
    split
    · rename_i h2
      have hlt : ⌊q⌋ < N := by
        rcases lt_or_eq_of_le hf with hlt | heq
        · exact hlt
        · exfalso
          have : (⌊q⌋ : ℚ) = (N : ℚ) := by exact_mod_cast heq
          rw [this] at h2
          linarith
      omega
    · rename_i h2
      have hr : q - (⌊q⌋ : ℚ) = 1/2 := le_antisymm (not_lt.mp h2) (not_lt.mp h1)
      have hlt : ⌊q⌋ < N := by
        rcases lt_or_eq_of_le hf with hlt | heq
        · exact hlt
        · exfalso
          have : (⌊q⌋ : ℚ) = (N : ℚ) := by exact_mod_cast heq
          rw [this] at hr
          linarith
      split
      · exact hf
      · omega

/-- Rounding to five decimals preserves the bound by one. -/
lemma round5_le_one (q : ℚ) (h : q ≤ 1) : round5 q ≤ 1 := by
  unfold round5
  have hb : pyRound (q * 100000) ≤ 100000 := by
    apply pyRound_le
    push_cast
    linarith
  rw [div_le_one (by norm_num)]
  exact_mod_cast hb

/-!
Claim theorems.
-/

/-- C9: the pairwise outcome model returns `sa / (sa + sb)` whenever the
total strength is positive, returns exactly one half when both strengths
are zero, is complementary-symmetric for positive strengths, and yields
a value in the unit interval for nonnegative strengths. -/
theorem c9_pairwise_win_prob_spec :
    (∀ a b : ℚ, 0 < a + b → pairwise_win_prob a b = a / (a + b)) ∧
    pairwise_win_prob 0 0 = 1/2 ∧
    (∀ a b : ℚ, 0 < a → 0 < b →
      pairwise_win_prob a b = 1 - pairwise_win_prob b a) ∧
    (∀ a b : ℚ, 0 ≤ a → 0 ≤ b →
      0 ≤ pairwise_win_prob a b ∧ pairwise_win_prob a b ≤ 1) := by
  refine ⟨?_, ?_, ?_, ?_⟩
  · intro a b h
    simp [pairwise_win_prob, h]
  · norm_num [pairwise_win_prob]
  · intro a b ha hb
    have hab : 0 < a + b := by linarith
    have hba : 0 < b + a := by linarith
    rw [pairwise_win_prob, pairwise_win_prob, if_pos hab, if_pos hba]
    rw [eq_sub_iff_add_eq, add_comm b a, div_add_div_same,
      div_self (ne_of_gt hab)]
  · intro a b ha hb
    unfold pairwise_win_prob
    split
    · rename_i hab
      constructor
      · exact div_nonneg ha (le_of_lt hab)
      · rw [div_le_one hab]
        linarith
    · norm_num

/-- C9 witness: the theorem applied at concrete strengths. -/
theorem c9_pairwise_win_prob_witness :
    pairwise_win_prob 1 2 = 1 / (1 + 2) ∧
    pairwise_win_prob 2 3 = 1 - pairwise_win_prob 3 2 ∧
    (0 ≤ pairwise_win_prob 1 2 ∧ pairwise_win_prob 1 2 ≤ 1) :=
  ⟨c9_pairwise_win_prob_spec.1 1 2 (by norm_num),
   c9_pairwise_win_prob_spec.2.2.1 2 3 (by norm_num) (by norm_num),
   c9_pairwise_win_prob_spec.2.2.2 1 2 (by norm_num) (by norm_num)⟩

/-- C3 counterexample: the unweighted seed signal at seed 1 is 0.98, not
1.0 as the claim states. -/
theorem c3_counterexample : seedSignal 1 ≠ 1 ∧ seedSignal 1 = 49/50 := by
  have h : seedSignal 1 = 49/50 := by with_unfolding_all rfl
  exact ⟨by rw [h]; norm_num, h⟩

/-- C3 (amended): the seed signal equals `1 - seed/50` for seeds up to
the hard-coded ceiling 50 (hence `49/50`, not `1`, at seed 1), equals 0
at or above the ceiling, and is never negative. -/
theorem c3_seed_signal_amended (s : ℕ) :
    (s = 1 → seedSignal s = 49/50) ∧
    (50 ≤ s → seedSignal s = 0) ∧
    (s ≤ 50 → seedSignal s = 1 - (s : ℚ) / 50) ∧
    0 ≤ seedSignal s := by
  refine ⟨?_, ?_, ?_, seedSignal_nonneg s⟩
  · rintro rfl
    with_unfolding_all rfl
  · intro h
    unfold seedSignal
    apply max_eq_left
    have : (50 : ℚ) ≤ (s : ℚ) := by exact_mod_cast h
    have : (1 : ℚ) ≤ (s : ℚ) / 50 := by linarith
    linarith
  · intro h
    unfold seedSignal
    apply max_eq_right
    have : (s : ℚ) ≤ 50 := by exact_mod_cast h
    have : (s : ℚ) / 50 ≤ 1 := by linarith
    linarith

/-- C3 witness: the amended theorem applied at concrete seeds. -/
theorem c3_seed_signal_witness :
    seedSignal 1 = 49/50 ∧ seedSignal 60 = 0 ∧
    seedSignal 10 = 1 - (10 : ℚ) / 50 ∧ 0 ≤ seedSignal 3 :=
  ⟨(c3_seed_signal_amended 1).1 rfl,
   (c3_seed_signal_amended 60).2.1 (by norm_num),
   (c3_seed_signal_amended 10).2.2.1 (by norm_num),
   (c3_seed_signal_amended 3).2.2.2⟩

/-- C7: two runs of the full simulation with the same random stream (the
stream is determined by the fixed seed) and identical inputs produce
identical result rows and final stream positions. -/
theorem c7_reproducible (teams : List Team) (bracket : Bracket)
    (w : Weights) (n : ℕ) (g1 g2 : ℕ → ℚ) (k : ℕ)
    (h : ∀ i, g1 i = g2 i) :
    simulate teams bracket w n g1 k = simulate teams bracket w n g2 k := by
  have hg : g1 = g2 := funext h
  rw [hg]

/-- C7 witness: the theorem applied to two copies of a concrete run. -/
theorem c7_reproducible_witness :
    simulate [tFixA, tFixB] bracketFix wFix 1 gHalf 0 =
      simulate [tFixA, tFixB] bracketFix wFix 1 gHalf 0 :=
  c7_reproducible [tFixA, tFixB] bracketFix wFix 1 gHalf gHalf 0 (fun _ => rfl)

/-- C8: with fewer than two competitors, `simulate` returns one all-zero
result row per supplied competitor and leaves the random stream position
untouched (no trial is run, no random value is drawn). -/
theorem c8_degenerate (teams : List Team) (bracket : Bracket) (w : Weights)
    (n : ℕ) (g : ℕ → ℚ) (k : ℕ) (h : teams.length < 2) :
    simulate teams bracket w n g k =
      .ok (teams.map (fun t =>
        { teamId := t.id, teamName := t.name,
          A := 0, B := 0, C := 0, D := 0, any := 0 }), k) := by
  unfold simulate
  rw [if_pos h]

/-- C8 witness: a one-team run short-circuits with a zero row and an
unchanged stream position. -/
theorem c8_degenerate_witness :
    simulate [tFixA] bracketFix wFix 5 gHalf 7 =
      .ok ([{ teamId := "a", teamName := "A",
              A := 0, B := 0, C := 0, D := 0, any := 0 }], 7) :=
  c8_degenerate [tFixA] bracketFix wFix 5 gHalf 7 (by norm_num)

/-- C2 counterexample: for a team with no head-to-head data and both the
standings and seed weights zero, the h2h weight is retained, so h2h
contributes a nonzero amount (here `0.3 × 0.5 = 0.15`) to the composite
strength, contradicting the claim that it contributes exactly zero. -/
theorem c2_counterexample :
    tFixA.h2h = [] ∧ wC2fix.standings = 0 ∧ wC2fix.draw = 0 ∧
    composite_strength tFixA wC2fix = 3/20 ∧
    composite_strength tFixA wC2fix ≠ 0 := by
  have h : composite_strength tFixA wC2fix = 3/20 := by with_unfolding_all rfl
  exact ⟨rfl, rfl, rfl, h, by rw [h]; norm_num⟩

/-- C2 (amended): for a competitor with no head-to-head data and
nonnegative standings and seed weights, when those two weights are not
both zero the h2h weight is redistributed to them in proportion to their
values, the effective h2h weight is 0, and the effective standings and
seed weights sum to the original total of all three; when both are zero
no redistribution occurs and the retained h2h weight contributes its
weight times the neutral 0.5 signal (not zero) to the composite
strength. -/
theorem c2_redistribution_amended (t : Team) (w : Weights)
    (hh2 : t.h2h = []) (hs : 0 ≤ w.standings) (hd : 0 ≤ w.draw) :
    (¬(w.standings = 0 ∧ w.draw = 0) →
      (effWeights t w).2.1 = 0 ∧
      (effWeights t w).1 + (effWeights t w).2.2 =
        w.standings + w.h2h + w.draw ∧
      (effWeights t w).1 =
        w.standings + w.h2h * (w.standings / (w.standings + w.draw)) ∧
      (effWeights t w).2.2 =
        w.draw + w.h2h * (w.draw / (w.standings + w.draw)) ∧
      composite_strength t w =
        (effWeights t w).1 * strength_from_standings t +
          (effWeights t w).2.2 * seedSignal t.seed) ∧
    (w.standings = 0 → w.draw = 0 →
      effWeights t w = (w.standings, w.h2h, w.draw) ∧
      composite_strength t w = w.h2h * (1/2)) := by
  constructor
  · intro hnz
    have hpos : 0 < w.standings + w.draw := by
      rcases eq_or_lt_of_le (add_nonneg hs hd) with h0 | h
      · exact absurd ⟨by linarith, by linarith⟩ hnz
      · exact h
    have hne : w.standings + w.draw ≠ 0 := ne_of_gt hpos
    have heff : effWeights t w =
        (w.standings + w.h2h * (w.standings / (w.standings + w.draw)), 0,
         w.draw + w.h2h * (w.draw / (w.standings + w.draw))) := by
      unfold effWeights
      dsimp only
      rw [if_pos ⟨hh2, hpos⟩]
    rw [heff]
    refine ⟨rfl, ?_, rfl, rfl, ?_⟩
    · field_simp
      ring
    · unfold composite_strength
      rw [heff]
      dsimp only
      ring
  · intro hs0 hd0
    have hcond : ¬(t.h2h = [] ∧ 0 < w.standings + w.draw) := by
      rintro ⟨-, hlt⟩
      rw [hs0, hd0] at hlt
      norm_num at hlt
    have heff : effWeights t w = (w.standings, w.h2h, w.draw) := by
      unfold effWeights
      dsimp only
      rw [if_neg hcond]
    refine ⟨heff, ?_⟩
    unfold composite_strength
    rw [heff]
    dsimp only
    rw [hs0, hd0]
    have hsig : strength_from_h2h t = 1/2 := by
      unfold strength_from_h2h
      rw [if_pos hh2]
    rw [hsig]
    ring

/-- C2 witness: the amended theorem applied to a concrete team with no
head-to-head data and the default weights. -/
theorem c2_redistribution_witness :
    (effWeights tFixA wFix).2.1 = 0 ∧
    (effWeights tFixA wFix).1 + (effWeights tFixA wFix).2.2 =
      wFix.standings + wFix.h2h + wFix.draw := by
  have h := (c2_redistribution_amended tFixA wFix rfl (by norm_num [wFix])
    (by norm_num [wFix])).1 (by norm_num [wFix])
  exact ⟨h.1, h.2.1⟩

/-- C4 counterexample: the code does not normalise the weights, so with
weights totalling 2 an undefeated seed-1 team gets composite strength 2,
outside the unit interval the claim asserts. -/
theorem c4_counterexample :
    composite_strength tC4fix wC4fix = 2 ∧
    ¬(composite_strength tC4fix wC4fix ≤ 1) := by
  have h : composite_strength tC4fix wC4fix = 2 := by with_unfolding_all rfl
  exact ⟨h, by rw [h]; norm_num⟩

/-- C4 (amended): for nonnegative component weights the composite
strength lies in `[0, standings + h2h + draw]`; it lies in `[0, 1]` only
when the weights total at most 1 (the code treats the weights as
absolute, not as relative proportions). -/
theorem c4_composite_strength_amended (t : Team) (w : Weights)
    (hs : 0 ≤ w.standings) (hh : 0 ≤ w.h2h) (hd : 0 ≤ w.draw) :
    0 ≤ composite_strength t w ∧
    composite_strength t w ≤ w.standings + w.h2h + w.draw := by
  obtain ⟨he1, he2, he3, hsum⟩ := effWeights_nonneg_sum t w hs hh hd
  obtain ⟨hs1l, hs1u⟩ := strength_from_standings_mem t
  obtain ⟨hs2l, hs2u⟩ := strength_from_h2h_mem t
  have hs3l := seedSignal_nonneg t.seed
  have hs3u := seedSignal_le_one t.seed
  unfold composite_strength
  dsimp only
  constructor
  · exact add_nonneg (add_nonneg (mul_nonneg he1 hs1l) (mul_nonneg he2 hs2l))
      (mul_nonneg he3 hs3l)
  · have b1 := mul_le_of_le_one_right he1 hs1u
    have b2 := mul_le_of_le_one_right he2 hs2u
    have b3 := mul_le_of_le_one_right he3 hs3u
    linarith

/-- C4 witness: the amended bound applied to a concrete team and the
default weights. -/
theorem c4_composite_strength_witness :
    0 ≤ composite_strength tFixA wFix ∧
    composite_strength tFixA wFix ≤ wFix.standings + wFix.h2h + wFix.draw :=
  c4_composite_strength_amended tFixA wFix (by norm_num [wFix])
    (by norm_num [wFix]) (by norm_num [wFix])

/-- The quarterfinal loop coincides with the spec-side pairing round. -/
lemma quarterRound_eq_pairRoundSpec (sm : StrengthMap) (g : ℕ → ℚ)
    (ps : List (ℕ × ℕ)) (q : List Team) (k : ℕ) :
    quarterRound sm g ps q k = pairRoundSpec sm g ps q k := by
  induction ps generalizing k with
  | nil => rfl
  | cons p rest ih =>
    obtain ⟨i, j⟩ := p
    simp only [quarterRound, pairRoundSpec]
    cases q.get? i <;> cases q.get? j <;> simp [ih]

/-- The championship-semifinal loop computes the winners component of
the spec-side pairing round. -/
lemma champSemiRound_winners (sm : StrengthMap) (g : ℕ → ℚ)
    (ps : List (ℕ × ℕ)) (e : List Team) (k : ℕ) :
    champSemiRound sm g ps e k =
      Option.map (fun r => (r.1, r.2.2)) (pairRoundSpec sm g ps e k) := by
  induction ps generalizing k with
  | nil => rfl
  | cons p rest ih =>
    obtain ⟨i, j⟩ := p
    simp only [champSemiRound, pairRoundSpec]
    cases e.get? i <;> cases e.get? j <;> try rfl
    rename_i a b
    rw [ih]
    cases hrec : pairRoundSpec sm g rest e (k + 1) with
    | none => rfl
    | some r =>
      obtain ⟨ws, ls, kf⟩ := r
      dsimp only [Option.map_some']
      split <;> rfl

/-- The consolation-semifinal loop is the championship-semifinal loop
(the source duplicates the code). -/
lemma consolSemiRound_eq_champ (sm : StrengthMap) (g : ℕ → ℚ)
    (ps : List (ℕ × ℕ)) (e : List Team) (k : ℕ) :
    consolSemiRound sm g ps e k = champSemiRound sm g ps e k := by
  induction ps generalizing k with
  | nil => rfl
  | cons p rest ih =>
    obtain ⟨i, j⟩ := p
    simp only [consolSemiRound, champSemiRound]
    cases e.get? i <;> cases e.get? j <;> simp [ih]

/-- The championship final is the spec-side final. -/
lemma champFinal_eq_finalSpec (sm : StrengthMap) (g : ℕ → ℚ)
    (ws : List Team) (k : ℕ) :
    champFinal sm g ws k = finalSpec sm g ws k := rfl

/-- The consolation final is the spec-side final. -/
lemma consolFinal_eq_finalSpec (sm : StrengthMap) (g : ℕ → ℚ)
    (ws : List Team) (k : ℕ) :
    consolFinal sm g ws k = finalSpec sm g ws k := rfl

/-- C5: the combined championship/consolation bracket pairs the
qualifiers by the declared quarter-round index pairs, then the primary
champion is produced by the spec-side half bracket (declared semi-round
pairs, then a final) applied to the quarter-round winners, and the
consolation champion by the same half bracket applied to the
quarter-round losers — the consolation mirrors the primary pairing using
the losers, with the random draws consumed in source order. -/
theorem c5_championship_pairing (qualifiers : List Team) (cfg : ChampCfg)
    (sm : StrengthMap) (g : ℕ → ℚ) (k : ℕ) :
    simulate_championship qualifiers cfg sm g k =
      match pairRoundSpec sm g cfg.quarterSeed qualifiers k with
      | none => none
      | some (qw, ql, k1) =>
        match miniBracketSpec sm g cfg.semiPairs qw k1 with
        | none => none
        | some (c, k2) =>
          match miniBracketSpec sm g cfg.semiPairs ql k2 with
          | none => none
          | some (d, k3) => some ((c, d), k3) := by
  unfold simulate_championship miniBracketSpec
  rw [quarterRound_eq_pairRoundSpec]
  cases hq : pairRoundSpec sm g cfg.quarterSeed qualifiers k with
  | none => rfl
  | some r =>
    obtain ⟨qw, ql, k1⟩ := r
    dsimp only
    rw [champSemiRound_winners]
    cases hcs : pairRoundSpec sm g cfg.semiPairs qw k1 with
    | none => rfl
    | some r2 =>
      obtain ⟨ws, ls, k2⟩ := r2
      dsimp only [Option.map_some']
      rw [champFinal_eq_finalSpec]
      cases hf : finalSpec sm g ws k2 with
      | none => rfl
      | some cf =>
        obtain ⟨c, k3⟩ := cf
        dsimp only
        rw [consolSemiRound_eq_champ, champSemiRound_winners]
        cases hns : pairRoundSpec sm g cfg.semiPairs ql k3 with
        | none => rfl
        | some r3 =>
          obtain ⟨ws2, ls2, k4⟩ := r3
          dsimp only [Option.map_some']
          rw [consolFinal_eq_finalSpec]

/-- When the qualifying phases and the championship succeed, the trial
body evaluates the C and D trees from the accumulated state, tallying
each only on success, and returns successfully regardless of C/D
failures. -/
lemma runTrial_cd (sm : StrengthMap) (tm : TeamsMap) (g : ℕ → ℚ)
    (ba bb : List BNode) (cfg : ChampCfg) (ct dt : BNode) (wins : Wins)
    (k : ℕ) (aQ bQ : List Team) (s1 s2 : SlotMap) (k1 k2 : ℕ)
    (cw dw : Team) (k3 : ℕ)
    (h1 : runEvent sm tm g ba [] k = .ok (aQ, s1, k1))
    (h2 : runEvent sm tm g bb s1 k1 = .ok (bQ, s2, k2))
    (h3 : simulate_championship (aQ ++ bQ) cfg sm g k2 = some ((cw, dw), k3)) :
    runTrial sm tm g ba bb cfg ct dt wins k =
      .ok (⟨bump wins.A cw.id, bump wins.B dw.id,
            (match (simulate_tree sm tm g ct s2 k3).1 with
             | .ok w2 => bump wins.C w2.id
             | .error _ => wins.C),
            (match (simulate_tree sm tm g dt (simulate_tree sm tm g ct s2 k3).2.1
                (simulate_tree sm tm g ct s2 k3).2.2).1 with
             | .ok w2 => bump wins.D w2.id
             | .error _ => wins.D)⟩,
           (simulate_tree sm tm g dt (simulate_tree sm tm g ct s2 k3).2.1
             (simulate_tree sm tm g ct s2 k3).2.2).2.2) := by
  unfold runTrial
  rw [h1]
  dsimp only
  rw [h2]
  dsimp only
  rw [h3]
  dsimp only
  rcases hrc : simulate_tree sm tm g ct s2 k3 with ⟨rc1, rcs, rck⟩
  rcases hrd : simulate_tree sm tm g dt rcs rck with ⟨rd1, rds, rdk⟩
  cases rc1 <;> cases rd1 <;> rfl

/-- An exception raised by the first tree of the primary qualifying
phase propagates out of `simulate` as an uncaught error. -/
lemma simulate_abort_head (teams : List Team) (bracket : Bracket)
    (w : Weights) (n : ℕ) (g : ℕ → ℚ) (k : ℕ) (node : BNode)
    (rest : List BNode) (e : SimError) (s' : SlotMap) (k' : ℕ)
    (h2 : 2 ≤ teams.length) (hn : 0 < n)
    (ha : bracket.a_event = node :: rest)
    (he : simulate_tree (strengthMapOf teams w) (teamsMapOf teams) g node [] k =
      (.error e, s', k')) :
    simulate teams bracket w n g k = .error (.key e) := by
  obtain ⟨m, rfl⟩ : ∃ m, n = m + 1 := ⟨n - 1, by omega⟩
  unfold simulate
  rw [if_neg (by omega : ¬teams.length < 2)]
  dsimp only
  unfold runTrials runTrial
  rw [ha]
  unfold runEvent
  rw [he]

/-- C1: resolving a Slot node absent from the trial slot table produces
the fatal error carrying that slot name; in the qualifying phase this
error aborts the whole `simulate` run, while in the C-event phase it is
caught — the trial still returns successfully, the C tally is left
unchanged, and the D event is still evaluated from the post-error
state. -/
theorem c1_slot_ordering_error :
    (∀ (sm : StrengthMap) (tm : TeamsMap) (g : ℕ → ℚ) (name : String)
        (slots : SlotMap) (k : ℕ), slots.lookup name = none →
      simulate_tree sm tm g (.slot name) slots k =
        (.error (.slotUnfilled name), slots, k)) ∧
    (∀ (teams : List Team) (bracket : Bracket) (w : Weights) (n : ℕ)
        (g : ℕ → ℚ) (k : ℕ) (name : String) (rest : List BNode),
      2 ≤ teams.length → 0 < n → bracket.a_event = .slot name :: rest →
      simulate teams bracket w n g k = .error (.key (.slotUnfilled name))) ∧
    (∀ (sm : StrengthMap) (tm : TeamsMap) (g : ℕ → ℚ) (ba bb : List BNode)
        (cfg : ChampCfg) (ct dt : BNode) (wins : Wins) (k : ℕ)
        (aQ bQ : List Team) (s1 s2 : SlotMap) (k1 k2 : ℕ) (cw dw : Team)
        (k3 : ℕ) (name : String) (s3 : SlotMap) (k4 : ℕ),
      runEvent sm tm g ba [] k = .ok (aQ, s1, k1) →
      runEvent sm tm g bb s1 k1 = .ok (bQ, s2, k2) →
      simulate_championship (aQ ++ bQ) cfg sm g k2 = some ((cw, dw), k3) →
      simulate_tree sm tm g ct s2 k3 = (.error (.slotUnfilled name), s3, k4) →
      runTrial sm tm g ba bb cfg ct dt wins k =
        .ok (⟨bump wins.A cw.id, bump wins.B dw.id, wins.C,
              (match (simulate_tree sm tm g dt s3 k4).1 with
               | .ok w2 => bump wins.D w2.id
               | .error _ => wins.D)⟩,
             (simulate_tree sm tm g dt s3 k4).2.2)) := by
  refine ⟨?_, ?_, ?_⟩
  · intro sm tm g name slots k h
    unfold simulate_tree
    rw [h]
  · intro teams bracket w n g k name rest h2 hn ha
    refine simulate_abort_head teams bracket w n g k (.slot name) rest
      (.slotUnfilled name) [] k h2 hn ha ?_
    rfl
  · intro sm tm g ba bb cfg ct dt wins k aQ bQ s1 s2 k1 k2 cw dw k3 name s3 k4
      h1 h2 h3 h4
    rw [runTrial_cd sm tm g ba bb cfg ct dt wins k aQ bQ s1 s2 k1 k2 cw dw k3
      h1 h2 h3, h4]

/-- C1 witness: the three clauses applied at concrete inputs — an empty
slot table, a malformed two-team bracket whose qualifying phase reads an
unfilled slot, and a trial whose C event reads the unfilled slot ZZ
while the D event still resolves slot B1. -/
theorem c1_slot_ordering_error_witness :
    simulate_tree [] [] gHalf (.slot "X") [] 0 =
      (.error (.slotUnfilled "X"), [], 0) ∧
    simulate [tFixA, tFixB] bracketBadA wFix 1 gHalf 0 =
      .error (.key (.slotUnfilled "QQ")) ∧
    runTrial [] tmFix gHalf bracketFix.a_event [] cfgFix (.slot "ZZ")
        (.slot "B1") winsZero 0 =
      .ok (⟨bump winsZero.A tFixB.id, bump winsZero.B tFixB.id, winsZero.C,
            (match (simulate_tree [] tmFix gHalf (.slot "B1")
                [("B1", tFixA)] 4).1 with
             | .ok w2 => bump winsZero.D w2.id
             | .error _ => winsZero.D)⟩,
           (simulate_tree [] tmFix gHalf (.slot "B1") [("B1", tFixA)] 4).2.2) :=
  ⟨c1_slot_ordering_error.1 [] [] gHalf "X" [] 0 rfl,
   c1_slot_ordering_error.2.1 [tFixA, tFixB] bracketBadA wFix 1 gHalf 0 "QQ" []
     (by norm_num) (by norm_num) rfl,
   c1_slot_ordering_error.2.2 [] tmFix gHalf bracketFix.a_event [] cfgFix
     (.slot "ZZ") (.slot "B1") winsZero 0 [tFixB] [] [("B1", tFixA)]
     [("B1", tFixA)] 1 1 tFixB tFixB 4 "ZZ" [("B1", tFixA)] 4
     (by with_unfolding_all rfl) (by with_unfolding_all rfl)
     (by with_unfolding_all rfl) (by with_unfolding_all rfl)⟩

/-- C10: any `KeyError` raised while evaluating the C or D event tree —
including a Competitor node whose team id is absent from the team map,
not only an unresolved slot — is caught: the trial returns successfully
and only that event is omitted from the tally; the same unknown team id
in the primary qualifying phase aborts the run. -/
theorem c10_keyerror_catch :
    (∀ (sm : StrengthMap) (tm : TeamsMap) (g : ℕ → ℚ) (id : String)
        (slots : SlotMap) (k : ℕ), tm.lookup id = none →
      simulate_tree sm tm g (.team id) slots k =
        (.error (.teamUnknown id), slots, k)) ∧
    (∀ (teams : List Team) (bracket : Bracket) (w : Weights) (n : ℕ)
        (g : ℕ → ℚ) (k : ℕ) (id : String) (rest : List BNode),
      2 ≤ teams.length → 0 < n → bracket.a_event = .team id :: rest →
      (teamsMapOf teams).lookup id = none →
      simulate teams bracket w n g k = .error (.key (.teamUnknown id))) ∧
    (∀ (sm : StrengthMap) (tm : TeamsMap) (g : ℕ → ℚ) (ba bb : List BNode)
        (cfg : ChampCfg) (ct dt : BNode) (wins : Wins) (k : ℕ)
        (aQ bQ : List Team) (s1 s2 : SlotMap) (k1 k2 : ℕ) (cw dw : Team)
        (k3 : ℕ) (e : SimError) (s3 : SlotMap) (k4 : ℕ)
        (rd1 : Except SimError Team) (s4 : SlotMap) (k5 : ℕ),
      runEvent sm tm g ba [] k = .ok (aQ, s1, k1) →
      runEvent sm tm g bb s1 k1 = .ok (bQ, s2, k2) →
      simulate_championship (aQ ++ bQ) cfg sm g k2 = some ((cw, dw), k3) →
      simulate_tree sm tm g ct s2 k3 = (.error e, s3, k4) →
      simulate_tree sm tm g dt s3 k4 = (rd1, s4, k5) →
      runTrial sm tm g ba bb cfg ct dt wins k =
        .ok (⟨bump wins.A cw.id, bump wins.B dw.id, wins.C,
              (match rd1 with
               | .ok w2 => bump wins.D w2.id
               | .error _ => wins.D)⟩, k5)) ∧
    (∀ (sm : StrengthMap) (tm : TeamsMap) (g : ℕ → ℚ) (ba bb : List BNode)
        (cfg : ChampCfg) (ct dt : BNode) (wins : Wins) (k : ℕ)
        (aQ bQ : List Team) (s1 s2 : SlotMap) (k1 k2 : ℕ) (cw dw : Team)
        (k3 : ℕ) (rc1 : Except SimError Team) (s3 : SlotMap) (k4 : ℕ)
        (e : SimError) (s4 : SlotMap) (k5 : ℕ),
      runEvent sm tm g ba [] k = .ok (aQ, s1, k1) →
      runEvent sm tm g bb s1 k1 = .ok (bQ, s2, k2) →
      simulate_championship (aQ ++ bQ) cfg sm g k2 = some ((cw, dw), k3) →
      simulate_tree sm tm g ct s2 k3 = (rc1, s3, k4) →
      simulate_tree sm tm g dt s3 k4 = (.error e, s4, k5) →
      runTrial sm tm g ba bb cfg ct dt wins k =
        .ok (⟨bump wins.A cw.id, bump wins.B dw.id,
              (match rc1 with
               | .ok w2 => bump wins.C w2.id
               | .error _ => wins.C), wins.D⟩, k5)) := by
  refine ⟨?_, ?_, ?_, ?_⟩
  · intro sm tm g id slots k h
    unfold simulate_tree
    rw [h]
  · intro teams bracket w n g k id rest h2 hn ha hlk
    refine simulate_abort_head teams bracket w n g k (.team id) rest
      (.teamUnknown id) [] k h2 hn ha ?_
    unfold simulate_tree
    rw [hlk]
  · intro sm tm g ba bb cfg ct dt wins k aQ bQ s1 s2 k1 k2 cw dw k3 e s3 k4
      rd1 s4 k5 h1 h2 h3 h4 h5
    rw [runTrial_cd sm tm g ba bb cfg ct dt wins k aQ bQ s1 s2 k1 k2 cw dw k3
      h1 h2 h3, h4]
    dsimp only
    rw [h5]
  · intro sm tm g ba bb cfg ct dt wins k aQ bQ s1 s2 k1 k2 cw dw k3 rc1 s3 k4
      e s4 k5 h1 h2 h3 h4 h5
    rw [runTrial_cd sm tm g ba bb cfg ct dt wins k aQ bQ s1 s2 k1 k2 cw dw k3
      h1 h2 h3, h4]
    dsimp only
    rw [h5]

/-- C10 witness: the four clauses at concrete inputs — an unknown team
id errors with that id; a bracket whose qualifying phase references the
unknown id aborts the run; the unknown id in the C tree (and an error in
the D tree) is caught and the trial still succeeds. -/
theorem c10_keyerror_catch_witness :
    simulate_tree [] [] gHalf (.team "zz") [] 3 =
      (.error (.teamUnknown "zz"), [], 3) ∧
    simulate [tFixA, tFixB] bracketBadT wFix 1 gHalf 0 =
      .error (.key (.teamUnknown "nope")) ∧
    runTrial [] tmFix gHalf bracketFix.a_event [] cfgFix (.team "zz")
        (.team "a") winsZero 0 =
      .ok (⟨bump winsZero.A tFixB.id, bump winsZero.B tFixB.id, winsZero.C,
            (match (.ok tFixA : Except SimError Team) with
             | .ok w2 => bump winsZero.D w2.id
             | .error _ => winsZero.D)⟩, 4) ∧
    runTrial [] tmFix gHalf bracketFix.a_event [] cfgFix (.team "a")
        (.team "zz") winsZero 0 =
      .ok (⟨bump winsZero.A tFixB.id, bump winsZero.B tFixB.id,
            (match (.ok tFixA : Except SimError Team) with
             | .ok w2 => bump winsZero.C w2.id
             | .error _ => winsZero.C), winsZero.D⟩, 4) :=
  ⟨c10_keyerror_catch.1 [] [] gHalf "zz" [] 3 rfl,
   c10_keyerror_catch.2.1 [tFixA, tFixB] bracketBadT wFix 1 gHalf 0 "nope" []
     (by norm_num) (by norm_num) rfl (by with_unfolding_all rfl),
   c10_keyerror_catch.2.2.1 [] tmFix gHalf bracketFix.a_event [] cfgFix
     (.team "zz") (.team "a") winsZero 0 [tFixB] [] [("B1", tFixA)]
     [("B1", tFixA)] 1 1 tFixB tFixB 4 (.teamUnknown "zz") [("B1", tFixA)] 4
     (.ok tFixA) [("B1", tFixA)] 4
     (by with_unfolding_all rfl) (by with_unfolding_all rfl)
     (by with_unfolding_all rfl) (by with_unfolding_all rfl)
     (by with_unfolding_all rfl),
   c10_keyerror_catch.2.2.2 [] tmFix gHalf bracketFix.a_event [] cfgFix
     (.team "a") (.team "zz") winsZero 0 [tFixB] [] [("B1", tFixA)]
     [("B1", tFixA)] 1 1 tFixB tFixB 4 (.ok tFixA) [("B1", tFixA)] 4
     (.teamUnknown "zz") [("B1", tFixA)] 4
     (by with_unfolding_all rfl) (by with_unfolding_all rfl)
     (by with_unfolding_all rfl) (by with_unfolding_all rfl)
     (by with_unfolding_all rfl)⟩

/-- C6: every result row has its capped "any" value at most 1; and when
trials actually run (at least two teams), the rows are exactly the
per-team records whose per-event field is the accumulated win count
divided by the trial count and rounded to 5 decimals, and whose "any"
field is the sum of the unrounded per-event probabilities capped at 1
and then rounded to 5 decimals. -/
theorem c6_result_record_fields (teams : List Team) (bracket : Bracket)
    (w : Weights) (n : ℕ) (g : ℕ → ℚ) (k : ℕ) (results : List ResultRec)
    (kf : ℕ) (hn : 0 < n)
    (hok : simulate teams bracket w n g k = .ok (results, kf)) :
    (∀ r ∈ results, r.any ≤ 1) ∧
    (2 ≤ teams.length →
      ∃ wins : Wins,
        runTrials (strengthMapOf teams w) (teamsMapOf teams) g
          bracket.a_event bracket.b_event bracket.championship
          bracket.c_event bracket.d_event n winsZero k = .ok (wins, kf) ∧
        results = teams.map (fun t =>
          { teamId := t.id, teamName := t.name,
            A := round5 ((wins.A t.id : ℚ) / (n : ℚ)),
            B := round5 ((wins.B t.id : ℚ) / (n : ℚ)),
            C := round5 ((wins.C t.id : ℚ) / (n : ℚ)),
            D := round5 ((wins.D t.id : ℚ) / (n : ℚ)),
            any := round5 (min 1 ((wins.A t.id : ℚ) / (n : ℚ) +
              (wins.B t.id : ℚ) / (n : ℚ) + (wins.C t.id : ℚ) / (n : ℚ) +
              (wins.D t.id : ℚ) / (n : ℚ))) })) := by
  unfold simulate at hok
  by_cases hlen : teams.length < 2
  · rw [if_pos hlen] at hok
    injection hok with hok1
    injection hok1 with hres hkf
    subst hres
    constructor
    · intro r hr
      obtain ⟨t, ht, rfl⟩ := List.mem_map.mp hr
      norm_num
    · intro h2
      omega
  · rw [if_neg hlen] at hok
    dsimp only at hok
    cases hrt : runTrials (strengthMapOf teams w) (teamsMapOf teams) g
        bracket.a_event bracket.b_event bracket.championship
        bracket.c_event bracket.d_event n winsZero k with
    | error e =>
      rw [hrt] at hok
      exact absurd hok (by simp)
    | ok p =>
      obtain ⟨wins, kf'⟩ := p
      rw [hrt] at hok
      dsimp only at hok
      injection hok with hok1
      injection hok1 with hres hkf
      subst hres
      subst hkf
      constructor
      · intro r hr
        obtain ⟨t, ht, rfl⟩ := List.mem_map.mp hr
        exact round5_le_one _ (min_le_left _ _)
      · intro _
        exact ⟨wins, rfl, rfl⟩

set_option maxRecDepth 80000 in
/-- C6 witness: the theorem applied to a one-trial run on the fixture
bracket, whose output rows are the concrete `c6ResultsFix`. -/
theorem c6_result_record_fields_witness :
    (∀ r ∈ c6ResultsFix, r.any ≤ 1) ∧
    (2 ≤ ([tFixA, tFixB] : List Team).length →
      ∃ wins : Wins,
        runTrials (strengthMapOf [tFixA, tFixB] wFix)
          (teamsMapOf [tFixA, tFixB]) gHalf bracketFix.a_event
          bracketFix.b_event bracketFix.championship bracketFix.c_event
          bracketFix.d_event 1 winsZero 0 = .ok (wins, 4) ∧
        c6ResultsFix = [tFixA, tFixB].map (fun t =>
          { teamId := t.id, teamName := t.name,
            A := round5 ((wins.A t.id : ℚ) / ((1 : ℕ) : ℚ)),
            B := round5 ((wins.B t.id : ℚ) / ((1 : ℕ) : ℚ)),
            C := round5 ((wins.C t.id : ℚ) / ((1 : ℕ) : ℚ)),
            D := round5 ((wins.D t.id : ℚ) / ((1 : ℕ) : ℚ)),
            any := round5 (min 1 ((wins.A t.id : ℚ) / ((1 : ℕ) : ℚ) +
              (wins.B t.id : ℚ) / ((1 : ℕ) : ℚ) +
              (wins.C t.id : ℚ) / ((1 : ℕ) : ℚ) +
              (wins.D t.id : ℚ) / ((1 : ℕ) : ℚ))) })) :=
  c6_result_record_fields [tFixA, tFixB] bracketFix wFix 1 gHalf 0
    c6ResultsFix 4 (by norm_num) (by with_unfolding_all rfl)

end Calcutta
